import Mathlib

/-!
Verification development for the Cafe_sql analytics core
(src/KPI_analyst.py and src/BA.py).

The pandas DataFrame is modelled row-major: a list of column names plus a
list of rows, each row a list of cells.  Cells are dynamically typed —
numeric (modelled as rationals), string, date (year/month/day), or the
missing value NaN/NaT (modelled as `Cell.null`).  All definitions are
translated from the Python source; comments cite line numbers of the
source files.
-/

attribute [local semireducible] Rat.mul Rat.add Rat.inv Rat.sub

deriving instance DecidableEq for Except

namespace CafeSql

/-- A dynamically typed cell of a pandas column.  Python/NumPy floats are
modelled as rationals; `null` stands for NaN/NaT/None. -/
inductive Cell where
  | num  (q : ℚ)
  | str  (s : String)
  | date (y m d : Nat)
  | null
deriving DecidableEq, Repr

def Cell.isNum : Cell → Bool
  | .num _ => true
  | _ => false

def Cell.isStr : Cell → Bool
  | .str _ => true
  | _ => false

def Cell.isDate : Cell → Bool
  | .date _ _ _ => true
  | _ => false

/-! ## Column Resolver (KPI_analyst.py lines 46-51) -/

/-- Python `s.lower()` — lower-case every character. -/
def strLower (s : String) : String :=
  ⟨s.data.map Char.toLower⟩

/-- Python `s.upper()` — upper-case every character. -/
def strUpper (s : String) : String :=
  ⟨s.data.map Char.toUpper⟩

/-- `col.lower().replace(" ", "")` — lower-case and remove every space. -/
def normalize (s : String) : String :=
  ⟨(s.data.map Char.toLower).filter (fun c => !(c == ' '))⟩

/-- `p.isPrefixOf l` for char lists, written out explicitly. -/
def leadsWith : List Char → List Char → Bool
  | [], _ => true
  | _ :: _, [] => false
  | p :: ps, c :: cs => p == c && leadsWith ps cs

/-- Contiguous-substring test on char lists (Python `a in b` on strings). -/
def hasSubstrAux (p : List Char) : List Char → Bool
  | [] => p.isEmpty
  | c :: cs => leadsWith p (c :: cs) || hasSubstrAux p cs

/-- Python `a in b` for strings: `a` occurs contiguously inside `b`. -/
def hasSubstr (a b : String) : Bool :=
  hasSubstrAux a.data b.data

/-- The loop body of `fuzzy_match`: first candidate whose normalized name
contains the already-normalized reference `c`. -/
def fuzzyLoop (c : String) : List String → Option String
  | [] => none
  | cand :: rest =>
      if hasSubstr c (normalize cand) then some cand else fuzzyLoop c rest

/-- KPI_analyst.py lines 46-51: normalize the reference, then scan the
candidates in order and return the first whose normalized form contains
it; `None` when no candidate matches. -/
def fuzzy_match (col : String) (candidates : List String) : Option String :=
  fuzzyLoop (normalize col) candidates

/-! ## DataFrame model -/

/-- A pandas DataFrame: ordered column names plus rows of cells.
Well-formed frames have one cell per column in every row. -/
structure DF where
  cols : List String
  rows : List (List Cell)
deriving DecidableEq, Repr

/-- Every row has exactly one cell per column (pandas invariant). -/
def DF.WF (df : DF) : Prop :=
  ∀ r ∈ df.rows, r.length = df.cols.length

/-- Index of the first column with the given label (pandas label
lookup). -/
def idxOf? (n : String) : List String → Option Nat
  | [] => none
  | c :: rest => if c == n then some 0 else (idxOf? n rest).map (· + 1)

/-- The cell of row `r` in the column named `n` (first column of that name,
as pandas label lookup does); `null` when the label is absent — callers
only use it after checking membership. -/
def cellAtName (cols : List String) (n : String) (r : List Cell) : Cell :=
  match idxOf? n cols with
  | some i => r.getD i Cell.null
  | none => Cell.null

/-- `df[name]` as a list of cells (None when the label is missing). -/
def DF.getCol (df : DF) (name : String) : Option (List Cell) :=
  (idxOf? name df.cols).map
    (fun i => df.rows.map (fun r => r.getD i Cell.null))

/-- `df[name] = cells`: replace the column when the label exists, else
append it on the right (pandas column assignment). -/
def setCol (df : DF) (name : String) (cells : List Cell) : DF :=
  match idxOf? name df.cols with
  | some i => ⟨df.cols, (df.rows.zip cells).map (fun p => p.1.set i p.2)⟩
  | none => ⟨df.cols ++ [name], (df.rows.zip cells).map (fun p => p.1 ++ [p.2])⟩

/-! ## KPI data model (the JSON records consumed by calculate_kpis) -/

structure FilterSpec where
  column : String
  value : Cell
deriving DecidableEq, Repr

structure KPIDef where
  name : String
  operation : String
  /-- models the JSON object `aggregation_map` (keys distinct, insertion
  order preserved, as in a Python dict). -/
  aggregation_map : List (String × String)
  filterSpec : Option FilterSpec
  group_by : List String
  why : String
deriving DecidableEq, Repr

/-- A KPIDefinition after evaluation: the dict augmented in place with
`value` (and `error` on failure). -/
structure KPIResult where
  kpi : KPIDef
  value : Cell
  error : Option String
deriving DecidableEq, Repr

/-! ## Aggregation semantics (KPI_analyst.py lines 100-146) -/

/-- pandas elementwise equality `==` between a stored cell and a filter
value: strictly typed — NaN compares unequal to everything (including
NaN), and there is no cross-type coercion (`5 == "5"` is False). -/
def cellEq : Cell → Cell → Bool
  | .num a, .num b => a == b
  | .str a, .str b => a == b
  | .date y1 m1 d1, .date y2 m2 d2 => y1 == y2 && m1 == m2 && d1 == d2
  | _, _ => false

/-- `temp_df[temp_df[fc] == v]` — keep the rows whose cell in column `fc`
equals `v`. -/
def filterEqDF (df : DF) (fc : String) (v : Cell) : DF :=
  ⟨df.cols, df.rows.filter (fun r => cellEq (cellAtName df.cols fc r) v)⟩

/-- Lines 105-111: resolve and apply the optional filter; an unresolvable
filter column raises `ValueError`. -/
def applyFilter (df : DF) : Option FilterSpec → Except String DF
  | none => .ok df
  | some f =>
      match fuzzy_match f.column df.cols with
      | some fc => .ok (filterEqDF df fc f.value)
      | none => .error ("Filter column " ++ f.column ++ " not found")

/-- Non-null cells of a column (pandas aggregations skip NaN). -/
def nonNull (cells : List Cell) : List Cell :=
  cells.filter (fun c => !(c == Cell.null))

def sumNums (cells : List Cell) : ℚ :=
  cells.foldr (fun c acc => match c with | .num q => q + acc | _ => acc) 0

def concatStrs (cells : List Cell) : String :=
  cells.foldr (fun c acc => match c with | .str s => s ++ acc | _ => acc) ""

/-- `Series.sum()`: sum of the non-null values — numeric columns sum
arithmetically (empty sum is 0), string columns concatenate, anything
else (dates, mixed types) raises `TypeError`. -/
def aggSum (cells : List Cell) : Except String Cell :=
  let nn := nonNull cells
  if nn.all Cell.isNum then .ok (.num (sumNums nn))
  else if nn.all Cell.isStr then .ok (.str (concatStrs nn))
  else .error "unsupported column type for sum"

/-- `Series.count()`: number of non-null values. -/
def aggCount (cells : List Cell) : Except String Cell :=
  .ok (.num ((nonNull cells).length))

/-- `Series.nunique()`: number of distinct non-null values. -/
def aggNunique (cells : List Cell) : Except String Cell :=
  .ok (.num (((nonNull cells).dedup).length))

/-- `Series.mean()`: arithmetic mean of the non-null values; the mean of
an empty column is NaN (modelled `null`); non-numeric columns raise. -/
def aggMean (cells : List Cell) : Except String Cell :=
  let nn := nonNull cells
  if nn.all Cell.isNum then
    if nn.isEmpty then .ok .null
    else .ok (.num (sumNums nn / nn.length))
  else .error "could not convert column to numeric"

/-- Lines 118-127: dispatch on the aggregation-kind string (compared
exactly, no upper-casing); an unknown kind raises `ValueError`. -/
def applyAgg (temp : DF) (actualCol : String) (kind : String) :
    Except String Cell :=
  match temp.getCol actualCol with
  | none => .error "KeyError"
  | some cells =>
      if kind = "SUM" then aggSum cells
      else if kind = "COUNT" then aggCount cells
      else if kind = "COUNT_DISTINCT" then aggNunique cells
      else if kind = "AVERAGE" then aggMean cells
      else .error ("Unsupported aggregation: " ++ kind)

/-- Lines 113-127: evaluate every aggregation-map entry in order, keyed by
the original reference; the column is resolved against the ORIGINAL
frame's columns but aggregated over the filtered frame.  The first
failure aborts the whole map. -/
def evalAggs (df temp : DF) : List (String × String) →
    Except String (List (String × Cell))
  | [] => .ok []
  | (ck, kind) :: rest =>
      match fuzzy_match ck df.cols with
      | none => .error ("Column " ++ ck ++ " not found")
      | some ac => do
          let v ← applyAgg temp ac kind
          let vs ← evalAggs df temp rest
          .ok ((ck, v) :: vs)

/-- Python `x != 0` on an aggregate: 0 only for the number zero (NaN,
strings and timestamps all compare unequal to 0). -/
def cellNeZero : Cell → Bool
  | .num q => decide (q ≠ 0)
  | _ => true

/-- Line 134: `a / b if b != 0 else 0`.  When the guard passes, dividing
non-numeric operands raises `TypeError`; NaN propagates. -/
def divCells (a b : Cell) : Except String Cell :=
  if cellNeZero b then
    match a, b with
    | .num x, .num y => .ok (.num (x / y))
    | .null, .num _ => .ok .null
    | .num _, .null => .ok .null
    | .null, .null => .ok .null
    | _, _ => .error "unsupported operand types for division"
  else .ok (.num 0)

/-- Line 137: `a * b`; numeric multiplication, NaN propagates, other
operand types raise.  (The Python corner where a string times an integer
count repeats the string is not modelled: counts are modelled as
rationals, and `str * float` raises in Python as well.) -/
def mulCells (a b : Cell) : Except String Cell :=
  match a, b with
  | .num x, .num y => .ok (.num (x * y))
  | .null, .num _ => .ok .null
  | .num _, .null => .ok .null
  | .null, .null => .ok .null
  | _, _ => .error "unsupported operand types for multiplication"

/-- Lines 129-139: combine the ordered aggregate list per the upper-cased
operation string; pass-through ops take the first entry, two-ary ops the
first two (a missing entry raises `IndexError`), anything else raises
`ValueError`. -/
def combineOp (opU : String) (aggs : List (String × Cell)) :
    Except String Cell :=
  if opU = "SUM" ∨ opU = "AVERAGE" ∨ opU = "COUNT" ∨ opU = "COUNT_DISTINCT" then
    match aggs with
    | (_, v) :: _ => .ok v
    | [] => .error "list index out of range"
  else if opU = "DIVIDE" ∨ opU = "RATIO" then
    match aggs with
    | (_, a) :: (_, b) :: _ => divCells a b
    | _ => .error "list index out of range"
  else if opU = "MULTIPLY" then
    match aggs with
    | (_, a) :: (_, b) :: _ => mulCells a b
    | _ => .error "list index out of range"
  else .error ("Unsupported operation: " ++ opU)

/-- Python `round(q, 2)` on a rational, `floor(q*100 + 1/2) / 100`.
(Python rounds exact halves to even; no claim exercises an exact half.) -/
def round2 (q : ℚ) : ℚ :=
  (Rat.floor (q * 100 + 1 / 2) : ℚ) / 100

/-- Line 141: `round(val, 2) if isinstance(val, (int, float, np.float64))
else val` — numbers are rounded to 2 decimals, everything else passes
through (NaN rounds to NaN, i.e. `null` stays `null`). -/
def roundIfNum : Cell → Cell
  | .num q => .num (round2 q)
  | v => v

/-- The body of the per-KPI `try` block, lines 103-141: copy the frame,
filter, evaluate the aggregation map, combine, round. -/
def calc_one (df : DF) (kpi : KPIDef) : Except String Cell := do
  let temp ← applyFilter df kpi.filterSpec
  let aggs ← evalAggs df temp kpi.aggregation_map
  let v ← combineOp (strUpper kpi.operation) aggs
  .ok (roundIfNum v)

/-- Lines 100-146: evaluate each KPI definition independently; a failure
sets the visible marker `"❌"` and records the message, and the loop
continues with the next definition. -/
def calculate_kpis (df : DF) (defs : List KPIDef) : List KPIResult :=
  defs.map (fun k =>
    match calc_one df k with
    | .ok v => ⟨k, v, none⟩
    | .error e => ⟨k, .str "❌", some e⟩)

/-! ## Chart builder (BA.py lines 105-200) -/

/-- The `y` field of a ChartSpec: a single column reference or a list. -/
inductive YSpec where
  | str (s : String)
  | list (l : List String)
deriving DecidableEq, Repr

structure ChartSpec where
  chart_type : String
  x : String
  y : YSpec
  /-- `spec.get("title", "Chart")` — absent titles default to "Chart". -/
  title : Option String
deriving DecidableEq, Repr

/-- The arguments handed to the plotly express constructor: everything
the rendering depends on. -/
structure Figure where
  kind : String
  data : DF
  x : String
  y : String
  color : Option String
  title : String
deriving DecidableEq, Repr

/-- Elementwise `df[num_col] / df[denom_col]` on one pair of cells.
Division by numeric zero yields inf/NaN in pandas, modelled as a missing
value; NaN propagates; non-numeric operands raise `TypeError`. -/
def cellDivPair (a b : Cell) : Except String Cell :=
  match a, b with
  | .num x, .num y => if y = 0 then .ok .null else .ok (.num (x / y))
  | .null, .num _ => .ok .null
  | .num _, .null => .ok .null
  | .null, .null => .ok .null
  | _, _ => .error "unsupported operand types for division"

def divideCols : List Cell → List Cell → Except String (List Cell)
  | [], _ => .ok []
  | _ :: _, [] => .ok []
  | a :: as, b :: bs => do
      let c ← cellDivPair a b
      let cs ← divideCols as bs
      .ok (c :: cs)

/-- Python `s.split(sep)` on a char list: split at every separator,
keeping empty pieces. -/
def splitOnChar (sep : Char) : List Char → List (List Char)
  | [] => [[]]
  | c :: cs =>
      if c == sep then [] :: splitOnChar sep cs
      else
        match splitOnChar sep cs with
        | [] => [[c]]
        | g :: gs => (c :: g) :: gs

/-- Python `s.strip()` — drop leading and trailing whitespace. -/
def trimChars (l : List Char) : List Char :=
  ((l.dropWhile Char.isWhitespace).reverse.dropWhile Char.isWhitespace).reverse

/-- `[col.strip() for col in y.split("/")]`. -/
def splitStrip (s : String) : List String :=
  (splitOnChar '/' s.data).map (fun cs => ⟨trimChars cs⟩)

/-- BA.py lines 110-116, the derived-ratio step.  `none` means the call
returns None without having assigned the derived column — either the
explicit missing-operand error (line 115), a `TypeError` from the
elementwise division, or the `ValueError` when the split does not unpack
into exactly two names (both caught by the outer handler).  `some df1`
is the caller's frame after the IN-PLACE assignment `df[y] = ...`. -/
def ratioResult (df : DF) (ystr : String) : Option DF :=
  match splitStrip ystr with
  | [ncol, dcol] =>
      if df.cols.contains ncol && df.cols.contains dcol then
        match df.getCol ncol, df.getCol dcol with
        | some xs, some ys =>
            match divideCols xs ys with
            | .ok cells => some (setCol df ystr cells)
            | .error _ => none
        | _, _ => none
      else none
  | _ => none

/-- Recognition of a date cell in string form, used by
`pd.to_datetime(..., errors="coerce")`.  Only ISO `YYYY-MM-DD` literals
are recognized; pandas accepts more formats, but every claim exercises
either an already-date-typed column (where parsing is the identity) or a
missing column (where the read raises before parsing). -/
def digitsToNat? (l : List Char) : Option Nat :=
  if !l.isEmpty && l.all Char.isDigit then
    some (l.foldl (fun acc c => acc * 10 + (c.toNat - 48)) 0)
  else none

def parseDateStr (s : String) : Option (Nat × Nat × Nat) :=
  match splitOnChar '-' s.data with
  | [ys, ms, ds] =>
      match digitsToNat? ys, digitsToNat? ms, digitsToNat? ds with
      | some yy, some mm, some dd =>
          if 1 ≤ mm ∧ mm ≤ 12 ∧ 1 ≤ dd ∧ dd ≤ 31 then some (yy, mm, dd)
          else none
      | _, _, _ => none
  | _ => none

/-- One cell under `pd.to_datetime(..., errors="coerce")`:
dates pass through, missing stays missing, unparseable strings coerce to
NaT, and numerics become epoch-offset timestamps (tiny offsets land in
January 1970 — no claim parses a numeric cell as a date). -/
def toDatetimeCell : Cell → Cell
  | .date y m d => .date y m d
  | .null => .null
  | .num _ => .date 1970 1 1
  | .str s =>
      match parseDateStr s with
      | some (y, m, d) => .date y m d
      | none => .null

/-- `.dt.to_period("M").dt.to_timestamp()` — bucket to the month start. -/
def bucketMonth : Cell → Cell
  | .date y m _ => .date y m 1
  | c => c

/-- `pd.api.types.is_datetime64_any_dtype`: content-based model — the
column holds at least one date and nothing but dates and missing
values. -/
def isDatetimeCol (cells : List Cell) : Bool :=
  cells.all (fun c => c.isDate || c == Cell.null) && cells.any Cell.isDate

/-- `df[names]` column projection; a missing label raises `KeyError`.
Duplicate names produce duplicate columns, as in pandas. -/
def selectCols (df : DF) (names : List String) : Except String DF :=
  if names.all (fun n => df.cols.contains n) then
    .ok ⟨names, df.rows.map (fun r => names.map (fun n => cellAtName df.cols n r))⟩
  else .error "KeyError"

/-- Drop the rows holding a missing value in any of the named columns. -/
def dropnaRows (df : DF) (names : List String) : DF :=
  ⟨df.cols, df.rows.filter
    (fun r => names.all (fun n => !(cellAtName df.cols n r == Cell.null)))⟩

/-- `df.dropna(subset=names)`; a missing label raises `KeyError`. -/
def dropnaSubset (df : DF) (names : List String) : Except String DF :=
  if names.all (fun n => df.cols.contains n) then .ok (dropnaRows df names)
  else .error "KeyError"

/-- `df.dropna()` — drop the rows holding a missing value anywhere. -/
def dropAllNull (df : DF) : DF :=
  ⟨df.cols, df.rows.filter (fun r => r.all (fun c => !(c == Cell.null)))⟩

def cellRank : Cell → Nat
  | .num _ => 0
  | .str _ => 1
  | .date _ _ _ => 2
  | .null => 3

/-- Comparison used for sorting keys and groupby keys.  Homogeneous
columns compare by value (numbers numerically, strings lexicographically,
dates chronologically); missing values sort last.  pandas raises on
mixed-type object keys — every claim sorts a homogeneous column, where
this order agrees with pandas. -/
def cellCmp (a b : Cell) : Ordering :=
  match a, b with
  | .num p, .num q => compare p q
  | .str s, .str t => compare s t
  | .date y1 m1 d1, .date y2 m2 d2 =>
      (compare y1 y2).then ((compare m1 m2).then (compare d1 d2))
  | a, b => compare (cellRank a) (cellRank b)

def cellLe (a b : Cell) : Bool :=
  !(cellCmp a b == Ordering.gt)

/-- Resolve a column label that must occur exactly once: pandas raises
`KeyError` when absent and `Grouper not 1-dimensional` / `ValueError`
when the label is duplicated in the frame. -/
def resolveUnique (cols : List String) (key : String) : Except String Nat :=
  if cols.count key = 1 then
    match idxOf? key cols with
    | some i => .ok i
    | none => .error "KeyError"
  else if cols.count key = 0 then .error "KeyError"
  else .error "Grouper for column is not 1-dimensional"

def insertRowBy (le : List Cell → List Cell → Bool) (r : List Cell) :
    List (List Cell) → List (List Cell)
  | [] => [r]
  | s :: rest => if le r s then r :: s :: rest else s :: insertRowBy le r rest

def sortRowsBy (le : List Cell → List Cell → Bool) :
    List (List Cell) → List (List Cell)
  | [] => []
  | r :: rest => insertRowBy le r (sortRowsBy le rest)

/-- `df.sort_values(by=key)` — sort the rows by the key column, ascending
(the claims never depend on the order of tied keys). -/
def sortValues (df : DF) (key : String) : Except String DF :=
  match resolveUnique df.cols key with
  | .error e => .error e
  | .ok i =>
      .ok ⟨df.cols,
        sortRowsBy (fun r1 r2 => cellLe (r1.getD i Cell.null) (r2.getD i Cell.null))
          df.rows⟩

def insertCellBy (c : Cell) : List Cell → List Cell
  | [] => [c]
  | d :: rest => if cellLe c d then c :: d :: rest else d :: insertCellBy c rest

def sortCells : List Cell → List Cell
  | [] => []
  | c :: rest => insertCellBy c (sortCells rest)

def pairLe (p q : Cell × Cell) : Bool :=
  match cellCmp p.1 q.1 with
  | .lt => true
  | .gt => false
  | .eq => cellLe p.2 q.2

def insertPairBy (p : Cell × Cell) : List (Cell × Cell) → List (Cell × Cell)
  | [] => [p]
  | q :: rest => if pairLe p q then p :: q :: rest else q :: insertPairBy p rest

def sortPairs : List (Cell × Cell) → List (Cell × Cell)
  | [] => []
  | p :: rest => insertPairBy p (sortPairs rest)

/-- `df.groupby(x)[y].sum().reset_index()`: group keys sorted ascending,
missing keys dropped, group sums per `Series.sum`. -/
def groupbySum1 (f : DF) (x y : String) : Except String DF := do
  let ix ← resolveUnique f.cols x
  let iy ← resolveUnique f.cols y
  let rows := f.rows.filter (fun r => !(r.getD ix Cell.null == Cell.null))
  let keys := sortCells ((rows.map (fun r => r.getD ix Cell.null)).dedup)
  let out ← keys.mapM (fun k => do
      let v ← aggSum (rows.filterMap
        (fun r => if r.getD ix Cell.null == k then some (r.getD iy Cell.null)
                  else none))
      pure [k, v])
  .ok ⟨[x, y], out⟩

/-- `df.groupby([x, c])[y].sum().reset_index()`: keys sorted
lexicographically; selecting a duplicated label as a grouper raises. -/
def groupbySum2 (f : DF) (x c y : String) : Except String DF := do
  let ix ← resolveUnique f.cols x
  let ic ← resolveUnique f.cols c
  let iy ← resolveUnique f.cols y
  let rows := f.rows.filter (fun r =>
    !(r.getD ix Cell.null == Cell.null) && !(r.getD ic Cell.null == Cell.null))
  let keys := sortPairs
    ((rows.map (fun r => (r.getD ix Cell.null, r.getD ic Cell.null))).dedup)
  let out ← keys.mapM (fun k => do
      let v ← aggSum (rows.filterMap
        (fun r => if r.getD ix Cell.null == k.1 && r.getD ic Cell.null == k.2
                  then some (r.getD iy Cell.null) else none))
      pure [k.1, k.2, v])
  .ok ⟨[x, c, y], out⟩

/-- `df.melt(id_vars=x, value_vars=ys, var_name="Series",
value_name="Value")`: wide to long, stacked per series. -/
def meltDF (f : DF) (x : String) (ys : List String) : DF :=
  ⟨[x, "Series", "Value"],
    ys.flatMap (fun v => f.rows.map
      (fun r => [cellAtName f.cols x r, .str v, cellAtName f.cols v r]))⟩

def possibleGroups : List String :=
  ["Category", "Sub-Category", "Segment", "Region", "State"]

def groupKeywords : List String :=
  ["category", "segment", "region", "state"]

/-- BA.py lines 140-147: when the lower-cased title mentions a grouping
keyword, pick the first candidate column present in the frame. -/
def inferColor (title : String) (cols : List String) : Option String :=
  if groupKeywords.any (fun kw => hasSubstr kw (strLower title)) then
    possibleGroups.find? (fun c => cols.contains c)
  else none

/-- BA.py lines 132-138, the date-bucketing step on the (already
rebound, caller-independent) working frame: when the `x` column is
date-typed or its name mentions "date", coerce it with `to_datetime`,
drop the rows that failed to parse, and bucket to month starts.  The
`none` branch is unreachable — `x` was validated by the preceding
`dropna(subset=...)`; in the source a missing label would raise to the
outer handler, which also yields no figure. -/
def dateStep (df : DF) (x : String) : Option DF :=
  match df.getCol x with
  | none => none
  | some cells =>
      if isDatetimeCol cells || hasSubstr "date" (strLower x) then
        let d1 := setCol df x (cells.map toDatetimeCell)
        let d2 := dropnaRows d1 [x]
        match d2.getCol x with
        | none => none
        | some cells2 => some (setCol d2 x (cells2.map bucketMonth))
      else some df

/-- BA.py lines 149-166, the multi-series path: project, drop nulls,
sort by `x`, melt to long form, and dispatch line/bar/scatter with the
series name as the color; pie (or any other type) is unsupported. -/
def multiPath (df : DF) (ct x : String) (ys : List String) (title : String) :
    Option Figure :=
  match selectCols df (x :: ys) with
  | .error _ => none
  | .ok f =>
      let f2 := dropAllNull f
      match sortValues f2 x with
      | .error _ => none
      | .ok f3 =>
          let m := meltDF f3 x ys
          if ct = "line" then some ⟨"line", m, x, "Value", some "Series", title⟩
          else if ct = "bar" then some ⟨"bar", m, x, "Value", some "Series", title⟩
          else if ct = "scatter" then
            some ⟨"scatter", m, x, "Value", some "Series", title⟩
          else none

/-- BA.py lines 168-197, the single-series path: group (by `x` for pie,
by `(x, color)` when a grouping column was inferred, else by `x`), sort
by `x`, and dispatch on the chart type. -/
def singlePath (df : DF) (ct x ystr : String) (colorCol : Option String)
    (title : String) : Option Figure :=
  let groupedE : Except String DF :=
    if ct = "pie" then do
      let f ← selectCols df [x, ystr]
      groupbySum1 f x ystr
    else
      match colorCol with
      | some cc => do
          let f ← selectCols df [x, ystr, cc]
          groupbySum2 f x cc ystr
      | none => do
          let f ← selectCols df [x, ystr]
          groupbySum1 f x ystr
  match groupedE with
  | .error _ => none
  | .ok g =>
      match sortValues g x with
      | .error _ => none
      | .ok gs =>
          if ct = "bar" then some ⟨"bar", gs, x, ystr, colorCol, title⟩
          else if ct = "line" then some ⟨"line", gs, x, ystr, colorCol, title⟩
          else if ct = "scatter" then
            some ⟨"scatter", gs, x, ystr, colorCol, title⟩
          else if ct = "pie" then some ⟨"pie", gs, x, ystr, none, title⟩
          else none

def yNames : YSpec → List String
  | .str s => [s]
  | .list l => l

/-- BA.py lines 118-197 after the ratio step.  Lines 118-124 (deriving a
date column when `x` is absent) are modelled as a no-op: reading the
absent column raises `KeyError` inside the inner `try`, so the handler
only emits a warning and no assignment takes place.  Every operation
from line 130 on acts on frames rebound from `dropna`, so nothing here
touches the caller's frame. -/
def chartTail (df : DF) (ct x : String) (y : YSpec) (title : String) :
    Option Figure :=
  let scalarBad :=
    match y with
    | .str s => !(df.cols.contains x) || !(df.cols.contains s)
    | .list _ => false
  if scalarBad then none
  else
    match dropnaSubset df (x :: yNames y) with
    | .error _ => none
    | .ok df2 =>
        match dateStep df2 x with
        | none => none
        | some df3 =>
            let colorCol := inferColor title df3.cols
            match y with
            | .list ys => multiPath df3 ct x ys title
            | .str ystr => singlePath df3 ct x ystr colorCol title

/-- BA.py lines 105-200, `generate_chart`.  The result pairs the returned
figure (None on any contained failure) with the caller's frame after the
call: the derived-ratio assignment on line 113 is the one statement that
runs before the working frame is rebound away from the caller's object,
so it is the one mutation the caller can observe. -/
def generate_chart (df : DF) (spec : ChartSpec) : Option Figure × DF :=
  let ct := strLower spec.chart_type
  let x := spec.x
  let title := spec.title.getD "Chart"
  match spec.y with
  | .str ystr =>
      if hasSubstr "/" ystr then
        match ratioResult df ystr with
        | none => (none, df)
        | some df1 => (chartTail df1 ct x (.str ystr) title, df1)
      else (chartTail df ct x (.str ystr) title, df)
  | .list ys => (chartTail df ct x (.list ys) title, df)

/-! ## General lemmas about the embedding -/

theorem hasSubstrAux_nil (l : List Char) : hasSubstrAux [] l = true := by
  induction l with
  | nil => rfl
  | cons c cs ih => simp [hasSubstrAux, leadsWith, ih]

theorem hasSubstr_empty_left (b : String) : hasSubstr "" b = true :=
  hasSubstrAux_nil b.data

theorem fuzzyLoop_none_iff (c : String) (l : List String) :
    fuzzyLoop c l = none ↔ ∀ s ∈ l, hasSubstr c (normalize s) = false := by
  induction l with
  | nil => simp [fuzzyLoop]
  | cons a rest ih =>
      by_cases h : hasSubstr c (normalize a) = true
      · simp [fuzzyLoop, h]
      · rw [Bool.not_eq_true] at h
        simp [fuzzyLoop, h, ih]

theorem fuzzyLoop_some_spec (c : String) (l : List String) (r : String)
    (h : fuzzyLoop c l = some r) :
    hasSubstr c (normalize r) = true ∧
    ∃ pre post, l = pre ++ r :: post ∧
      ∀ p ∈ pre, hasSubstr c (normalize p) = false := by
  induction l with
  | nil => simp [fuzzyLoop] at h
  | cons a rest ih =>
      by_cases hs : hasSubstr c (normalize a) = true
      · rw [fuzzyLoop, if_pos hs, Option.some.injEq] at h
        subst h
        exact ⟨hs, [], rest, rfl, by simp⟩
      · rw [fuzzyLoop, if_neg hs] at h
        obtain ⟨h1, pre, post, hl, hpre⟩ := ih h
        refine ⟨h1, a :: pre, post, by simp [hl], ?_⟩
        intro p hp
        rcases List.mem_cons.mp hp with hpa | hpp
        · subst hpa; exact Bool.not_eq_true _ ▸ (by simpa using hs)
        · exact hpre p hpp

/-- C3: `fuzzy_match` returns the first candidate, in the dataset's column
order, whose lower-cased space-stripped name contains the lower-cased
space-stripped reference as a contiguous substring, and returns `none`
exactly when no candidate satisfies this. -/
theorem fuzzy_match_first_containing (col : String) (cands : List String) :
    (fuzzy_match col cands = none ↔
      ∀ c ∈ cands, hasSubstr (normalize col) (normalize c) = false) ∧
    (∀ c, fuzzy_match col cands = some c →
      hasSubstr (normalize col) (normalize c) = true ∧
      ∃ pre post, cands = pre ++ c :: post ∧
        ∀ p ∈ pre, hasSubstr (normalize col) (normalize p) = false) := by
  constructor
  · exact fuzzyLoop_none_iff (normalize col) cands
  · intro c hc
    exact fuzzyLoop_some_spec (normalize col) cands c hc

/-- Witness for C3 at a concrete input: "profit" resolves to the first
(and only) containing candidate "Total Profit", skipping "Region". -/
theorem fuzzy_match_first_containing_witness :
    hasSubstr (normalize "profit") (normalize "Total Profit") = true ∧
    ∃ pre post, ["Region", "Total Profit"] = pre ++ "Total Profit" :: post ∧
      ∀ p ∈ pre, hasSubstr (normalize "profit") (normalize p) = false :=
  (fuzzy_match_first_containing "profit" ["Region", "Total Profit"]).2
    "Total Profit" (by decide)

/-- C9: a reference whose normalized form is empty (empty or all spaces)
resolves to the FIRST column of any non-empty candidate list, never to
`none` — the empty string is a substring of every candidate. -/
theorem fuzzy_match_empty_ref_first (col : String) (cands : List String)
    (h1 : normalize col = "") (h2 : cands ≠ []) :
    fuzzy_match col cands = some (cands.head h2) := by
  cases cands with
  | nil => exact absurd rfl h2
  | cons a rest =>
      have hsub : hasSubstr (normalize col) (normalize a) = true := by
        rw [h1]; exact hasSubstr_empty_left _
      simp [fuzzy_match, fuzzyLoop, hsub, List.head]

/-- Witness for C9: the all-space reference binds to the first column. -/
theorem fuzzy_match_empty_ref_first_witness :
    normalize "  " = "" ∧
    fuzzy_match "  " ["Region", "Profit"] = some "Region" :=
  ⟨by decide, fuzzy_match_empty_ref_first "  " ["Region", "Profit"]
    (by decide) (by decide)⟩

theorem except_bind_ok {α β : Type} (a : α) (f : α → Except String β) :
    (Except.ok a >>= f) = f a := rfl

theorem except_bind_err {α β : Type} (e : String) (f : α → Except String β) :
    ((Except.error e : Except String α) >>= f) = .error e := rfl

/-! ## C2: per-KPI failure containment -/

/-- C2: every KPI definition in the batch is evaluated independently —
the result list has one entry per definition, each entry carries its own
definition, and a failing definition gets the visible `"❌"` marker and
its error message while a succeeding one gets its value; no exception
escapes `calculate_kpis` (it is a total function of its inputs). -/
theorem calculate_kpis_isolates_failures (df : DF) (defs : List KPIDef)
    (i : Nat) (hi : i < defs.length) (d1 : KPIDef) (d2 : KPIResult) :
    (calculate_kpis df defs).length = defs.length ∧
    ((calculate_kpis df defs).getD i d2).kpi = defs.getD i d1 ∧
    ((∃ e, calc_one df (defs.getD i d1) = .error e ∧
        ((calculate_kpis df defs).getD i d2).value = .str "❌" ∧
        ((calculate_kpis df defs).getD i d2).error = some e) ∨
     (∃ v, calc_one df (defs.getD i d1) = .ok v ∧
        ((calculate_kpis df defs).getD i d2).value = v ∧
        ((calculate_kpis df defs).getD i d2).error = none)) := by
  have hlen : (calculate_kpis df defs).length = defs.length := by
    simp [calculate_kpis]
  have hi2 : i < (calculate_kpis df defs).length := by rw [hlen]; exact hi
  have hd1 : defs.getD i d1 = defs[i] := List.getD_eq_getElem defs d1 hi
  have hd2 : (calculate_kpis df defs).getD i d2 = (calculate_kpis df defs)[i] :=
    List.getD_eq_getElem _ d2 hi2
  have hmap : (calculate_kpis df defs)[i] =
      (match calc_one df defs[i] with
       | .ok v => (⟨defs[i], v, none⟩ : KPIResult)
       | .error e => ⟨defs[i], .str "❌", some e⟩) := by
    simp [calculate_kpis]
  refine ⟨hlen, ?_, ?_⟩
  · rw [hd1, hd2, hmap]
    cases calc_one df defs[i] <;> rfl
  · rw [hd1, hd2, hmap]
    cases hc : calc_one df defs[i] with
    | error e => exact .inl ⟨e, rfl, rfl, rfl⟩
    | ok v => exact .inr ⟨v, rfl, rfl, rfl⟩

def dfC2 : DF := ⟨["A"], [[.num 1], [.num 2]]⟩
def kpiC2ok : KPIDef := ⟨"total", "SUM", [("A", "SUM")], none, [], ""⟩
def kpiC2bad : KPIDef := ⟨"bad", "MEDIAN", [("A", "SUM")], none, [], ""⟩

/-- Witness for C2: in a batch of a good and a bad definition, the bad
one (unsupported operation MEDIAN) is marked `"❌"` with its message and
still occupies its slot, with the batch length preserved. -/
theorem calculate_kpis_isolates_failures_witness :
    (calculate_kpis dfC2 [kpiC2ok, kpiC2bad]).length = 2 ∧
    ((calculate_kpis dfC2 [kpiC2ok, kpiC2bad]).getD 1 ⟨kpiC2ok, .null, none⟩).kpi
      = kpiC2bad ∧
    ∃ e, calc_one dfC2 kpiC2bad = .error e ∧
      ((calculate_kpis dfC2 [kpiC2ok, kpiC2bad]).getD 1 ⟨kpiC2ok, .null, none⟩).value
        = .str "❌" ∧
      ((calculate_kpis dfC2 [kpiC2ok, kpiC2bad]).getD 1 ⟨kpiC2ok, .null, none⟩).error
        = some e := by
  obtain ⟨h1, h2, h3⟩ := calculate_kpis_isolates_failures dfC2 [kpiC2ok, kpiC2bad]
    1 (by decide) kpiC2ok ⟨kpiC2ok, .null, none⟩
  have hbad : calc_one dfC2 kpiC2bad = .error "Unsupported operation: MEDIAN" := by
    decide
  refine ⟨h1, by simpa using h2, ?_⟩
  rcases h3 with ⟨e, he, hv, herr⟩ | ⟨v, hv, _, _⟩
  · exact ⟨e, by simpa using he, hv, herr⟩
  · rw [show ([kpiC2ok, kpiC2bad].getD 1 kpiC2ok) = kpiC2bad from rfl, hbad] at hv
    cases hv

/-! ## C5: pass-through operations and rounding -/

/-- C5: for SUM/AVERAGE/COUNT/COUNT_DISTINCT, the KPI value is the scalar
of the FIRST aggregation-map entry (a pass-through, not a
re-aggregation); numeric values are rounded to 2 decimals, non-numeric
values pass through unrounded. -/
theorem calc_one_passthrough_first (df : DF) (kpi : KPIDef) (temp : DF)
    (k0 : String) (v0 : Cell) (rest : List (String × Cell))
    (hf : applyFilter df kpi.filterSpec = .ok temp)
    (ha : evalAggs df temp kpi.aggregation_map = .ok ((k0, v0) :: rest))
    (hop : strUpper kpi.operation = "SUM" ∨ strUpper kpi.operation = "AVERAGE" ∨
      strUpper kpi.operation = "COUNT" ∨ strUpper kpi.operation = "COUNT_DISTINCT") :
    calc_one df kpi = .ok (roundIfNum v0) ∧
    (∀ q, v0 = .num q → roundIfNum v0 = .num (round2 q)) ∧
    (v0.isNum = false → roundIfNum v0 = v0) := by
  have hcomb : combineOp (strUpper kpi.operation) ((k0, v0) :: rest) = .ok v0 := by
    rcases hop with h | h | h | h <;> rw [h] <;> rfl
  refine ⟨?_, ?_, ?_⟩
  · rw [calc_one, hf, except_bind_ok, ha, except_bind_ok, hcomb, except_bind_ok]
  · intro q hq; rw [hq]; rfl
  · intro h
    cases v0 with
    | num q => simp [Cell.isNum] at h
    | str s => rfl
    | date y m d => rfl
    | null => rfl

def dfC5 : DF := ⟨["A", "B"], [[.num (1/3), .str "u"]]⟩
def kpiC5num : KPIDef := ⟨"avg", "AVERAGE", [("A", "AVERAGE")], none, [], ""⟩
def kpiC5str : KPIDef := ⟨"txt", "COUNT", [("B", "SUM")], none, [], ""⟩

/-- Witness for C5: the numeric first aggregate 1/3 is rounded to 0.33;
a COUNT operation over a string SUM simply passes the string through,
unrounded — the operation name does not re-aggregate. -/
theorem calc_one_passthrough_first_witness :
    calc_one dfC5 kpiC5num = .ok (.num (33/100)) ∧
    calc_one dfC5 kpiC5str = .ok (.str "u") := by
  have h1 := calc_one_passthrough_first dfC5 kpiC5num dfC5 "A" (.num (1/3)) []
    (by decide) (by decide) (by right; left; decide)
  have h2 := calc_one_passthrough_first dfC5 kpiC5str dfC5 "B" (.str "u") []
    (by decide) (by decide) (by right; right; left; decide)
  refine ⟨?_, ?_⟩
  · rw [h1.1]
    have : roundIfNum (.num (1/3)) = .num (33/100) := by decide
    rw [this]
  · rw [h2.1, h2.2.2 (by decide)]

/-! ## C4: DIVIDE/RATIO semantics and the zero-denominator guard -/

def dfC4 : DF := ⟨["A", "B"], [[.str "x", .str "y"]]⟩
def kpiC4 : KPIDef := ⟨"k4", "DIVIDE", [("A", "SUM"), ("B", "SUM")], none, [], ""⟩

/-- C4 counterexample: both aggregation-map entries evaluate successfully
(string sums "x" and "y", as `Series.sum` concatenates object columns),
yet the KPI value is NOT the first aggregate divided by the second — the
division of the two successfully-evaluated aggregates fails and the KPI
is marked `"❌"`.  The claim as stated (any two successfully evaluated
entries divide) is therefore false; it holds for numeric aggregates. -/
theorem divide_string_aggregates_counterexample :
    evalAggs dfC4 dfC4 kpiC4.aggregation_map =
      .ok [("A", .str "x"), ("B", .str "y")] ∧
    calculate_kpis dfC4 [kpiC4] =
      [⟨kpiC4, .str "❌", some "unsupported operand types for division"⟩] := by
  constructor <;> decide

/-- C4 amended: for DIVIDE/RATIO KPIs whose two aggregation-map entries
evaluate successfully to NUMERIC scalars, the value is the first divided
by the second (rounded to 2 decimals), with the documented zero guard:
a zero denominator yields 0, and the resolution returns a value — it
never raises. -/
theorem calc_one_divide_zero_guard (df : DF) (kpi : KPIDef) (temp : DF)
    (k1 k2 : String) (a b : ℚ) (rest : List (String × Cell))
    (hf : applyFilter df kpi.filterSpec = .ok temp)
    (ha : evalAggs df temp kpi.aggregation_map =
      .ok ((k1, .num a) :: (k2, .num b) :: rest))
    (hop : strUpper kpi.operation = "DIVIDE" ∨ strUpper kpi.operation = "RATIO") :
    calc_one df kpi = .ok (.num (if b = 0 then 0 else round2 (a / b))) := by
  have hcomb : combineOp (strUpper kpi.operation) ((k1, .num a) :: (k2, .num b) :: rest)
      = divCells (.num a) (.num b) := by
    rcases hop with h | h <;> rw [h] <;> rfl
  rw [calc_one, hf, except_bind_ok, ha, except_bind_ok, hcomb]
  by_cases hb : b = 0
  · subst hb
    have hd : divCells (Cell.num a) (Cell.num 0) = .ok (.num 0) := by
      simp [divCells, cellNeZero]
    rw [hd, except_bind_ok]
    have h0 : round2 0 = 0 := by decide
    simp [roundIfNum, h0]
  · have hd : divCells (Cell.num a) (Cell.num b) = .ok (.num (a / b)) := by
      simp [divCells, cellNeZero, hb]
    rw [hd, except_bind_ok]
    simp [roundIfNum, hb]

def dfC4w : DF := ⟨["Sales", "Orders"], [[.num 600, .num 7], [.num 400, .num 9]]⟩
def kpiC4w : KPIDef := ⟨"aov", "RATIO", [("Sales", "SUM"), ("Orders", "COUNT")], none, [], ""⟩
def dfC4z : DF := ⟨["A", "B"], [[.num 5, .num 0]]⟩
def kpiC4z : KPIDef := ⟨"z", "DIVIDE", [("A", "SUM"), ("B", "SUM")], none, [], ""⟩

/-- Witness for C4 (amended): SUM(Sales)=1000 over COUNT(Orders)=2 gives
500; a zero denominator gives 0 without an error result. -/
theorem calc_one_divide_zero_guard_witness :
    calc_one dfC4w kpiC4w = .ok (.num 500) ∧
    calc_one dfC4z kpiC4z = .ok (.num 0) := by
  have h1 := calc_one_divide_zero_guard dfC4w kpiC4w dfC4w "Sales" "Orders"
    1000 2 [] (by decide) (by decide) (by right; decide)
  have h2 := calc_one_divide_zero_guard dfC4z kpiC4z dfC4z "A" "B"
    5 0 [] (by decide) (by decide) (by left; decide)
  constructor
  · rw [h1]
    have : (if (2 : ℚ) = 0 then 0 else round2 (1000 / 2)) = 500 := by decide
    rw [this]
  · rw [h2]
    have : (if (0 : ℚ) = 0 then 0 else round2 (5 / 0)) = 0 := by decide
    rw [this]

/-! ## C8: filter equality semantics -/

def dfC8 : DF := ⟨["Qty"], [[.num 5]]⟩
def kpiC8 : KPIDef := ⟨"k8", "COUNT", [("Qty", "COUNT")], some ⟨"Qty", .str "5"⟩, [], ""⟩

/-- C8 counterexample: a numerically-typed column holding 5, filtered
with the string value "5", matches NO rows — the COUNT over the filtered
frame is 0, not 1.  The claimed coercion to string comparison (string
filter value matching a numeric column holding the same number) does not
exist: pandas equality is strictly typed. -/
theorem filter_string_vs_numeric_counterexample :
    calculate_kpis dfC8 [kpiC8] = [⟨kpiC8, .num 0, none⟩] := by decide

/-- C8 amended: a resolvable filter restricts the working rows to exactly
those whose stored cell equals the filter value under STRICT TYPED
equality — numbers match equal numbers, strings match equal strings, and
there is no cross-type coercion (a string value never matches a numeric
cell and vice versa; missing values match nothing). -/
theorem filter_strict_typed_equality (df : DF) (f : FilterSpec) (fc : String)
    (h : fuzzy_match f.column df.cols = some fc) :
    applyFilter df (some f) =
      .ok ⟨df.cols, df.rows.filter (fun r => cellEq (cellAtName df.cols fc r) f.value)⟩ ∧
    (∀ q s, cellEq (.num q) (.str s) = false) ∧
    (∀ s q, cellEq (.str s) (.num q) = false) ∧
    (∀ p q, cellEq (.num p) (.num q) = true ↔ p = q) ∧
    (∀ s t, cellEq (.str s) (.str t) = true ↔ s = t) ∧
    (∀ c, cellEq Cell.null c = false) := by
  refine ⟨?_, fun q s => rfl, fun s q => rfl, ?_, ?_, ?_⟩
  · rw [applyFilter, h]; rfl
  · intro p q; simp [cellEq]
  · intro s t; simp [cellEq]
  · intro c; cases c <;> rfl

/-- Witness for C8 (amended): the concrete filter keeps no rows, and the
typed-equality facts hold at concrete values. -/
theorem filter_strict_typed_equality_witness :
    applyFilter dfC8 (some ⟨"Qty", .str "5"⟩) = .ok ⟨["Qty"], []⟩ ∧
    cellEq (.num 5) (.str "5") = false ∧
    (cellEq (.num 5) (.num 5) = true ↔ (5 : ℚ) = 5) := by
  have h := filter_strict_typed_equality dfC8 ⟨"Qty", .str "5"⟩ "Qty" (by decide)
  refine ⟨?_, h.2.1 5 "5", h.2.2.2.1 5 5⟩
  rw [h.1]; decide

/-! ## C10: arity faults on two-ary operations are contained -/

theorem evalAggs_ok_length (df temp : DF) (m : List (String × String))
    (l : List (String × Cell)) (h : evalAggs df temp m = .ok l) :
    l.length = m.length := by
  induction m generalizing l with
  | nil =>
      rw [evalAggs] at h
      cases h; rfl
  | cons p rest ih =>
      obtain ⟨ck, kind⟩ := p
      rw [evalAggs] at h
      cases hfm : fuzzy_match ck df.cols with
      | none => rw [hfm] at h; cases h
      | some ac =>
          simp only [hfm] at h
          cases hap : applyAgg temp ac kind with
          | error e => rw [hap, except_bind_err] at h; cases h
          | ok v =>
              rw [hap, except_bind_ok] at h
              cases hrest : evalAggs df temp rest with
              | error e => rw [hrest, except_bind_err] at h; cases h
              | ok vs =>
                  rw [hrest, except_bind_ok] at h
                  cases h
                  simp [ih vs hrest]

/-- C10: a DIVIDE/RATIO/MULTIPLY definition whose aggregation map has
fewer than two entries always fails inside its own evaluation (the
missing second aggregate is an index fault), the fault is contained —
the KPI gets the `"❌"` marker and an error message — and every other
definition in the batch is still evaluated in place. -/
theorem calculate_kpis_arity_fault_contained (df : DF) (kpi : KPIDef)
    (hop : strUpper kpi.operation = "DIVIDE" ∨ strUpper kpi.operation = "RATIO" ∨
           strUpper kpi.operation = "MULTIPLY")
    (hlen : kpi.aggregation_map.length < 2) :
    ∃ e, calc_one df kpi = .error e ∧
      ∀ pre post, calculate_kpis df (pre ++ kpi :: post) =
        calculate_kpis df pre ++
          (⟨kpi, .str "❌", some e⟩ : KPIResult) :: calculate_kpis df post := by
  have hcal : ∃ e, calc_one df kpi = .error e := by
    cases hf : applyFilter df kpi.filterSpec with
    | error e => exact ⟨e, by rw [calc_one, hf, except_bind_err]⟩
    | ok temp =>
        cases ha : evalAggs df temp kpi.aggregation_map with
        | error e => exact ⟨e, by rw [calc_one, hf, except_bind_ok, ha, except_bind_err]⟩
        | ok l =>
            have hl : l.length < 2 := by
              rw [evalAggs_ok_length df temp _ l ha]; exact hlen
            have hcomb : combineOp (strUpper kpi.operation) l
                = .error "list index out of range" := by
              match l, hl with
              | [], _ => rcases hop with h | h | h <;> rw [h] <;> rfl
              | [x], _ => rcases hop with h | h | h <;> rw [h] <;> rfl
            exact ⟨"list index out of range",
              by rw [calc_one, hf, except_bind_ok, ha, except_bind_ok, hcomb,
                     except_bind_err]⟩
  obtain ⟨e, he⟩ := hcal
  refine ⟨e, he, ?_⟩
  intro pre post
  simp [calculate_kpis, he]

def dfC10 : DF := ⟨["S"], [[.num 4], [.num 6]]⟩
def kpiC10 : KPIDef := ⟨"half", "divide", [("S", "SUM")], none, [], ""⟩
def kpiC10ok : KPIDef := ⟨"tot", "SUM", [("S", "SUM")], none, [], ""⟩

/-- Witness for C10: a lower-case "divide" with a one-entry map fails
locally while its siblings are still computed. -/
theorem calculate_kpis_arity_fault_contained_witness :
    ∃ e, calc_one dfC10 kpiC10 = .error e ∧
      calculate_kpis dfC10 ([kpiC10ok] ++ kpiC10 :: [kpiC10ok]) =
        calculate_kpis dfC10 [kpiC10ok] ++
          (⟨kpiC10, .str "❌", some e⟩ : KPIResult) :: calculate_kpis dfC10 [kpiC10ok] := by
  obtain ⟨e, h1, h2⟩ := calculate_kpis_arity_fault_contained dfC10 kpiC10
    (by left; decide) (by decide)
  exact ⟨e, h1, h2 [kpiC10ok] [kpiC10ok]⟩

/-! ## Lemmas about DataFrame primitives -/

theorem idxOf?_some_spec (n : String) (l : List String) (i : Nat)
    (h : idxOf? n l = some i) : ∃ hlt : i < l.length, l[i] = n := by
  induction l generalizing i with
  | nil => simp [idxOf?] at h
  | cons a rest ih =>
      rw [idxOf?] at h
      by_cases ha : (a == n) = true
      · rw [if_pos ha] at h
        cases h
        exact ⟨by simp, by simpa using ha⟩
      · rw [if_neg ha] at h
        cases hr : idxOf? n rest with
        | none => rw [hr] at h; cases h
        | some j =>
            rw [hr] at h
            cases h
            obtain ⟨hj, hget⟩ := ih j hr
            exact ⟨by simpa using Nat.succ_lt_succ hj, by simpa using hget⟩

theorem idxOf?_eq_none_iff (n : String) (l : List String) :
    idxOf? n l = none ↔ n ∉ l := by
  induction l with
  | nil => simp [idxOf?]
  | cons a rest ih =>
      rw [idxOf?]
      by_cases ha : (a == n) = true
      · simp [ha, beq_iff_eq.mp ha]
      · have hne : a ≠ n := by simpa using ha
        simp only [if_neg ha, Option.map_eq_none', ih, List.mem_cons]
        constructor
        · intro h hmem
          rcases hmem with heq | hmem
          · exact hne heq.symm
          · exact h hmem
        · intro h hmem
          exact h (Or.inr hmem)

theorem idxOf?_isSome_of_mem (n : String) (l : List String) (h : n ∈ l) :
    ∃ i, idxOf? n l = some i := by
  cases hi : idxOf? n l with
  | none => exact absurd h ((idxOf?_eq_none_iff n l).mp hi)
  | some i => exact ⟨i, rfl⟩

theorem contains_eq_true_of_mem (n : String) (l : List String) (h : n ∈ l) :
    l.contains n = true :=
  List.elem_iff.mpr h

theorem idxOf?_append_not_last (c s : String) (l : List String) (hne : c ≠ s) :
    idxOf? c (l ++ [s]) = idxOf? c l := by
  induction l with
  | nil =>
      have : (s == c) = false := beq_eq_false_iff_ne.mpr (fun h => hne h.symm)
      simp [idxOf?, this]
  | cons a rest ih => rw [List.cons_append, idxOf?, idxOf?, ih]

theorem getCol_some_shape (df : DF) (n : String) (xs : List Cell)
    (h : df.getCol n = some xs) :
    ∃ i, idxOf? n df.cols = some i ∧
      xs = df.rows.map (fun r => r.getD i Cell.null) := by
  rw [DF.getCol] at h
  cases hi : idxOf? n df.cols with
  | none => rw [hi] at h; cases h
  | some i =>
      rw [hi] at h
      cases h
      exact ⟨i, rfl, rfl⟩

theorem getCol_length (df : DF) (n : String) (xs : List Cell)
    (h : df.getCol n = some xs) : xs.length = df.rows.length := by
  obtain ⟨i, _, hxs⟩ := getCol_some_shape df n xs h
  simp [hxs]

theorem set_getD_self (l : List Cell) (i : Nat) (d : Cell) :
    l.set i (l.getD i d) = l := by
  induction l generalizing i with
  | nil => rfl
  | cons a rest ih =>
      cases i with
      | zero => rfl
      | succ j =>
          show a :: rest.set j (rest.getD j d) = a :: rest
          rw [ih]

theorem getD_set_self_lt (l : List Cell) (i : Nat) (v d : Cell)
    (h : i < l.length) : (l.set i v).getD i d = v := by
  rw [List.getD_eq_getElem?_getD, List.getElem?_set_self h]
  rfl

theorem getD_set_ne (l : List Cell) (i j : Nat) (v d : Cell) (h : i ≠ j) :
    (l.set i v).getD j d = l.getD j d := by
  rw [List.getD_eq_getElem?_getD, List.getElem?_set_ne h,
    ← List.getD_eq_getElem?_getD]

theorem getD_default_of_le (l : List Cell) (i : Nat) (d : Cell)
    (h : l.length ≤ i) : l.getD i d = d := by
  rw [List.getD_eq_getElem?_getD, List.getElem?_eq_none h]
  rfl

theorem lt_length_of_getD_isDate (l : List Cell) (i : Nat)
    (h : (l.getD i Cell.null).isDate = true) : i < l.length := by
  by_contra hle
  rw [getD_default_of_le l i Cell.null (Nat.le_of_not_lt hle)] at h
  cases h

theorem zip_self_map (l : List (List Cell)) (g : List Cell → Cell) :
    l.zip (l.map g) = l.map (fun r => (r, g r)) := by
  have h := List.zip_map' id g l
  simpa using h

theorem setCol_self_map (df : DF) (x : String) (i : Nat)
    (hidx : idxOf? x df.cols = some i) (g : Cell → Cell) :
    setCol df x ((df.rows.map (fun r => r.getD i Cell.null)).map g) =
      ⟨df.cols, df.rows.map (fun r => r.set i (g (r.getD i Cell.null)))⟩ := by
  simp only [setCol, hidx]
  congr 1
  have h1 : (df.rows.map (fun r => r.getD i Cell.null)).map g
      = df.rows.map (fun r => g (r.getD i Cell.null)) := by
    rw [List.map_map]; rfl
  rw [h1, zip_self_map df.rows (fun r => g (r.getD i Cell.null)), List.map_map]
  rfl

theorem setCol_id (df : DF) (x : String) (i : Nat)
    (hidx : idxOf? x df.cols = some i) :
    setCol df x (df.rows.map (fun r => r.getD i Cell.null)) = df := by
  have h := setCol_self_map df x i hidx id
  rw [List.map_id] at h
  rw [h]
  have : df.rows.map (fun r => r.set i (id (r.getD i Cell.null))) = df.rows := by
    apply List.map_congr_left ?_ |>.trans (List.map_id df.rows)
    intro r _
    exact set_getD_self r i Cell.null
  rw [this]

theorem dropnaRows_eq_self (df : DF) (names : List String)
    (h : ∀ r ∈ df.rows,
      (names.all (fun n => !(cellAtName df.cols n r == Cell.null))) = true) :
    dropnaRows df names = df := by
  rw [dropnaRows, List.filter_eq_self.mpr h]

theorem divideCols_length (xs ys cs : List Cell)
    (h : divideCols xs ys = .ok cs) :
    cs.length = min xs.length ys.length := by
  induction xs generalizing ys cs with
  | nil => rw [divideCols] at h; cases h; simp
  | cons a as ih =>
      cases ys with
      | nil => rw [divideCols] at h; cases h; simp
      | cons b bs =>
          rw [divideCols] at h
          cases hc : cellDivPair a b with
          | error e => rw [hc, except_bind_err] at h; cases h
          | ok c =>
              rw [hc, except_bind_ok] at h
              cases hcs : divideCols as bs with
              | error e => rw [hcs, except_bind_err] at h; cases h
              | ok rest =>
                  rw [hcs, except_bind_ok] at h
                  cases h
                  simp [ih bs rest hcs, Nat.succ_min_succ]

theorem ratioResult_some_shape (df : DF) (ystr : String) (df1 : DF)
    (h : ratioResult df ystr = some df1) :
    ∃ cells, cells.length = df.rows.length ∧ df1 = setCol df ystr cells := by
  rw [ratioResult] at h
  rcases hsp : splitStrip ystr with _ | ⟨ncol, _ | ⟨dcol, _ | ⟨e3, tail⟩⟩⟩ <;>
    simp only [hsp] at h
  · cases h
  · cases h
  · by_cases hcc : (df.cols.contains ncol && df.cols.contains dcol) = true
    · rw [if_pos hcc] at h
      cases hgn : df.getCol ncol with
      | none => simp only [hgn] at h; cases h
      | some xs =>
          cases hgd : df.getCol dcol with
          | none => simp only [hgn, hgd] at h; cases h
          | some ys =>
              simp only [hgn, hgd] at h
              cases hdc : divideCols xs ys with
              | error e => simp only [hdc] at h; cases h
              | ok cells =>
                  simp only [hdc] at h
                  cases h
                  refine ⟨cells, ?_, rfl⟩
                  rw [divideCols_length xs ys cells hdc,
                    getCol_length df ncol xs hgn, getCol_length df dcol ys hgd]
                  simp
    · rw [if_neg hcc] at h; cases h
  · cases h

theorem map_getD_zip_fst (rows : List (List Cell)) (cells : List Cell)
    (j : Nat) (f : List Cell × Cell → List Cell)
    (hlen : cells.length = rows.length)
    (hpt : ∀ p ∈ rows.zip cells, (f p).getD j Cell.null = p.1.getD j Cell.null) :
    ((rows.zip cells).map f).map (fun r => r.getD j Cell.null) =
      rows.map (fun r => r.getD j Cell.null) := by
  rw [List.map_map]
  have h1 : ∀ p ∈ rows.zip cells,
      ((fun r => r.getD j Cell.null) ∘ f) p
        = ((fun r => r.getD j Cell.null) ∘ Prod.fst) p := by
    intro p hp
    exact hpt p hp
  rw [List.map_congr_left h1, ← List.map_map,
    List.map_fst_zip rows cells (by rw [hlen])]

theorem getCol_setCol_ne (df : DF) (s c : String) (cells : List Cell)
    (hne : c ≠ s) (hlen : cells.length = df.rows.length) (hwf : df.WF) :
    (setCol df s cells).getCol c = df.getCol c := by
  cases hidx : idxOf? s df.cols with
  | some i =>
      simp only [setCol, hidx, DF.getCol]
      cases hjdx : idxOf? c df.cols with
      | none => rfl
      | some j =>
          simp only [Option.map_some', Option.some.injEq]
          have hij : i ≠ j := by
            obtain ⟨hi, hci⟩ := idxOf?_some_spec s _ i hidx
            obtain ⟨hj, hcj⟩ := idxOf?_some_spec c _ j hjdx
            intro e
            subst e
            rw [hci] at hcj
            exact hne hcj.symm
          exact map_getD_zip_fst df.rows cells j _ hlen
            (fun p _ => getD_set_ne p.1 i j p.2 Cell.null hij)
  | none =>
      simp only [setCol, hidx, DF.getCol]
      rw [idxOf?_append_not_last c s df.cols hne]
      cases hjdx : idxOf? c df.cols with
      | none => rfl
      | some j =>
          simp only [Option.map_some', Option.some.injEq]
          obtain ⟨hj, hcj⟩ := idxOf?_some_spec c _ j hjdx
          refine map_getD_zip_fst df.rows cells j _ hlen ?_
          intro p hp
          have hp1 : p.1 ∈ df.rows := (List.of_mem_zip hp).1
          have hjlt : j < p.1.length := by rw [hwf p.1 hp1]; exact hj
          rw [List.getD_eq_getElem?_getD, List.getElem?_append,
            if_pos hjlt, ← List.getD_eq_getElem?_getD]

/-! ## C1: mutation of the caller's frame by generate_chart -/

/-- The in-place derived-ratio assignment of BA.py line 113 actually
runs: `y` is a slash expression that splits into two names, both present
as columns, and the elementwise division raises nothing. -/
def ratioApplied (df : DF) (spec : ChartSpec) : Bool :=
  match spec.y with
  | .str s => hasSubstr "/" s && (ratioResult df s).isSome
  | .list _ => false

def dfC1 : DF := ⟨["Profit", "Sales"], [[.num 10, .num 5]]⟩
def specC1 : ChartSpec := ⟨"bar", "Region", .str "Profit/Sales", some "t"⟩
def dfC1b : DF := ⟨["A"], [[.num 1]]⟩
def specC1b : ChartSpec := ⟨"bar", "A", .str "A", some "t"⟩

/-- C1 counterexample: `generate_chart` does NOT leave the caller's
dataset unchanged.  With `y = "Profit/Sales"`, line 113 assigns the
derived column into the caller's frame before any rebinding, so after
the call the caller's dataset has gained the column "Profit/Sales" —
even though the chart itself fails (x is absent) and no figure is
returned. -/
theorem generate_chart_mutates_caller :
    (generate_chart dfC1 specC1).2 ≠ dfC1 ∧
    generate_chart dfC1 specC1 =
      (none, ⟨["Profit", "Sales", "Profit/Sales"],
        [[.num 10, .num 5, .num 2]]⟩) := by
  constructor <;> decide

/-- C1 amended: the caller's frame survives `generate_chart` unchanged
EXCEPT for the derived-ratio assignment: when no ratio column is
computed the frame is returned exactly as given, and in every case every
column other than the one named by the ratio string `y` keeps exactly
its original cells — only that single column can be added (or
overwritten). -/
theorem generate_chart_caller_mutation_scope (df : DF) (spec : ChartSpec)
    (hwf : df.WF) :
    (ratioApplied df spec = false → (generate_chart df spec).2 = df) ∧
    (∀ c : String, (∀ s, spec.y = YSpec.str s → c ≠ s) →
      ((generate_chart df spec).2).getCol c = df.getCol c) := by
  constructor
  · intro h
    cases hy : spec.y with
    | list ys => simp [generate_chart, hy]
    | str s =>
        by_cases hs : hasSubstr "/" s = true
        · simp only [ratioApplied, hy, hs, Bool.true_and] at h
          have hrr : ratioResult df s = none := by
            cases hr : ratioResult df s with
            | none => rfl
            | some df1 => rw [hr] at h; cases h
          simp [generate_chart, hy, hs, hrr]
        · simp [generate_chart, hy, hs]
  · intro c hc
    cases hy : spec.y with
    | list ys => simp [generate_chart, hy]
    | str s =>
        have hcs : c ≠ s := hc s hy
        by_cases hs : hasSubstr "/" s = true
        · cases hr : ratioResult df s with
          | none => simp [generate_chart, hy, hs, hr]
          | some df1 =>
              obtain ⟨cells, hlen, hdf1⟩ := ratioResult_some_shape df s df1 hr
              have h2 : (generate_chart df spec).2 = df1 := by
                simp [generate_chart, hy, hs, hr]
              rw [h2, hdf1]
              exact getCol_setCol_ne df s c cells hcs hlen hwf
        · simp [generate_chart, hy, hs]

/-- Witness for C1 (amended): a spec without a ratio `y` leaves the
frame untouched, and after a ratio build the untouched column "Sales"
still reads back exactly as before. -/
theorem generate_chart_caller_mutation_scope_witness :
    (generate_chart dfC1b specC1b).2 = dfC1b ∧
    ((generate_chart dfC1 specC1).2).getCol "Sales" = dfC1.getCol "Sales" := by
  constructor
  · exact (generate_chart_caller_mutation_scope dfC1b specC1b
      (by unfold DF.WF; decide)).1 (by decide)
  · refine (generate_chart_caller_mutation_scope dfC1 specC1
      (by unfold DF.WF; decide)).2 "Sales" ?_
    intro s hs
    rw [show specC1.y = YSpec.str "Profit/Sales" from rfl] at hs
    injection hs with h
    subst h
    decide

/-! ## C6: the Region bar-chart example -/

def dfC6 : DF := ⟨["Region", "Profit"],
  [[.str "East", .num 10], [.str "East", .num 20],
   [.str "West", .num 5], [.str "West", .num 7]]⟩
def specC6 : ChartSpec :=
  ⟨"bar", "Region", .str "Profit", some "Average profit by Region"⟩

/-- C6: on the spec's own example — bar, x=Region, y=Profit, title
"Average profit by Region", two rows per region — the build FAILS.  The
title contains the keyword "region", so the grouping-column inference
fires and selects the first candidate column present in the frame; with
no Category/Sub-Category/Segment column that candidate is "Region"
itself, the x column.  The `df[[x, y, color]]` projection then carries
the label twice and grouping by the duplicated label raises, so
`generate_chart` returns no figure (ValueError, caught by the outer
handler) instead of the claimed 2-row bar chart sorted by region. -/
theorem bar_by_region_inferred_group_fails :
    generate_chart dfC6 specC6 = (none, dfC6) ∧
    inferColor "Average profit by Region" dfC6.cols = some "Region" := by
  constructor <;> decide

/-! ## C7: date parsing and month bucketing -/

def dfC7 : DF := ⟨["Sales"], [[.num 3]]⟩
def specC7 : ChartSpec := ⟨"bar", "Order Date", .str "Sales", some "monthly"⟩

/-- C7 counterexample: with `x = "Order Date"` absent from the dataset
(a date-suggesting name), the builder does NOT parse the field as a date
— reading the absent column raises inside the inner handler before any
assignment, so no date column is created, nothing is bucketed, and the
build returns no figure with the dataset exactly as it was. -/
theorem missing_date_column_no_parse :
    generate_chart dfC7 specC7 = (none, dfC7) := by decide

theorem cell_isDate_beq_null (c : Cell) (h : c.isDate = true) :
    (c == Cell.null) = false := by
  cases c <;> first | rfl | cases h

theorem cell_isNum_beq_null (c : Cell) (h : c.isNum = true) :
    (c == Cell.null) = false := by
  cases c <;> first | rfl | cases h

theorem mem_insertCellBy (c d : Cell) (l : List Cell) :
    d ∈ insertCellBy c l ↔ d = c ∨ d ∈ l := by
  induction l with
  | nil => simp [insertCellBy]
  | cons a rest ih =>
      rw [insertCellBy]
      by_cases h : cellLe c a = true
      · simp [h]
      · simp only [if_neg h, List.mem_cons, ih]
        tauto

theorem mem_sortCells (d : Cell) (l : List Cell) :
    d ∈ sortCells l ↔ d ∈ l := by
  induction l with
  | nil => simp [sortCells]
  | cons a rest ih =>
      rw [sortCells, mem_insertCellBy]
      simp [ih]

theorem mem_insertRowBy (le : List Cell → List Cell → Bool)
    (r s : List Cell) (l : List (List Cell)) :
    s ∈ insertRowBy le r l ↔ s = r ∨ s ∈ l := by
  induction l with
  | nil => simp [insertRowBy]
  | cons a rest ih =>
      rw [insertRowBy]
      by_cases h : le r a = true
      · simp [h]
      · simp only [if_neg h, List.mem_cons, ih]
        tauto

theorem mem_sortRowsBy (le : List Cell → List Cell → Bool)
    (s : List Cell) (l : List (List Cell)) :
    s ∈ sortRowsBy le l ↔ s ∈ l := by
  induction l with
  | nil => simp [sortRowsBy]
  | cons a rest ih =>
      rw [sortRowsBy, mem_insertRowBy]
      simp [ih]

theorem aggSum_ok_of_nums (cells : List Cell)
    (h : ∀ c ∈ cells, c.isNum = true) :
    ∃ q, aggSum cells = .ok (.num q) := by
  have hnn : (nonNull cells).all Cell.isNum = true :=
    List.all_eq_true.mpr (fun c hc => h c (List.mem_filter.mp hc).1)
  exact ⟨sumNums (nonNull cells), by rw [aggSum]; simp only [hnn, if_true]⟩

theorem except_pure {β : Type} (b : β) : (pure b : Except String β) = .ok b := rfl

theorem mapM_ok_of_forall_ok {α β : Type} (step : α → Except String β)
    (l : List α) (h : ∀ a ∈ l, ∃ b, step a = .ok b) :
    ∃ out, l.mapM step = .ok out ∧ ∀ o ∈ out, ∃ a ∈ l, step a = .ok o := by
  induction l with
  | nil => exact ⟨[], by rw [List.mapM_nil]; rfl, by simp⟩
  | cons a rest ih =>
      obtain ⟨b, hb⟩ := h a (by simp)
      obtain ⟨out, hout, hmem⟩ := ih (fun x hx => h x (by simp [hx]))
      refine ⟨b :: out, ?_, ?_⟩
      · rw [List.mapM_cons, hb, except_bind_ok, hout, except_bind_ok, except_pure]
      · intro o ho
        rcases List.mem_cons.mp ho with rfl | ho2
        · exact ⟨a, by simp, hb⟩
        · obtain ⟨a2, ha2, h2⟩ := hmem o ho2
          exact ⟨a2, by simp [ha2], h2⟩

theorem resolveUnique_pair_left (x y : String) (hne : x ≠ y) :
    resolveUnique [x, y] x = .ok 0 := by
  rw [resolveUnique]
  have h1 : List.count x [x, y] = 1 := by
    have hyx : (y == x) = false := beq_eq_false_iff_ne.mpr (Ne.symm hne)
    simp [List.count_cons, hyx]
  rw [if_pos h1]
  simp [idxOf?]

theorem resolveUnique_pair_right (x y : String) (hne : x ≠ y) :
    resolveUnique [x, y] y = .ok 1 := by
  rw [resolveUnique]
  have hxy : (x == y) = false := beq_eq_false_iff_ne.mpr hne
  have h1 : List.count y [x, y] = 1 := by
    simp [List.count_cons, hxy]
  rw [if_pos h1]
  simp [idxOf?, hxy]

theorem groupbySum1_dates (f : DF) (x ystr : String) (hne : x ≠ ystr)
    (hcols : f.cols = [x, ystr])
    (hshape : ∀ rr ∈ f.rows, ∃ a b v, rr = [Cell.date a b 1, v] ∧ v.isNum = true) :
    ∃ out, groupbySum1 f x ystr = .ok ⟨[x, ystr], out⟩ ∧
      ∀ o ∈ out, ∃ a b v, o = [Cell.date a b 1, v] := by
  have hrx : resolveUnique f.cols x = .ok 0 := by
    rw [hcols]; exact resolveUnique_pair_left x ystr hne
  have hry : resolveUnique f.cols ystr = .ok 1 := by
    rw [hcols]; exact resolveUnique_pair_right x ystr hne
  have hfilter : f.rows.filter (fun r => !(r.getD 0 Cell.null == Cell.null))
      = f.rows := by
    refine List.filter_eq_self.mpr ?_
    intro rr hrr
    obtain ⟨a, b, v, hrw, _⟩ := hshape rr hrr
    rw [hrw]
    rfl
  have hkey : ∀ k ∈ sortCells ((f.rows.map
      (fun r => r.getD 0 Cell.null)).dedup), ∃ a b, k = Cell.date a b 1 := by
    intro k hk
    rw [mem_sortCells, List.mem_dedup] at hk
    obtain ⟨rr, hrr, hge⟩ := List.mem_map.mp hk
    obtain ⟨a, b, v, hrw, _⟩ := hshape rr hrr
    refine ⟨a, b, ?_⟩
    rw [← hge, hrw]
    rfl
  have hvals : ∀ k, ∀ v ∈ f.rows.filterMap
      (fun r => if r.getD 0 Cell.null == k then some (r.getD 1 Cell.null)
                else none), v.isNum = true := by
    intro k v hv
    obtain ⟨rr, hrr, hsome⟩ := List.mem_filterMap.mp hv
    obtain ⟨a, b, w, hrw, hw⟩ := hshape rr hrr
    by_cases hifc : (rr.getD 0 Cell.null == k) = true
    · rw [if_pos hifc, Option.some.injEq] at hsome
      rw [← hsome, hrw]
      exact hw
    · rw [if_neg hifc] at hsome
      cases hsome
  have hstep : ∀ k ∈ sortCells ((f.rows.map
      (fun r => r.getD 0 Cell.null)).dedup),
      ∃ o, (do
        let v ← aggSum (f.rows.filterMap
          (fun r => if r.getD 0 Cell.null == k then some (r.getD 1 Cell.null)
                    else none))
        pure [k, v] : Except String (List Cell)) = .ok o := by
    intro k _
    obtain ⟨q, hq⟩ := aggSum_ok_of_nums _ (hvals k)
    exact ⟨[k, .num q], by rw [hq, except_bind_ok, except_pure]⟩
  obtain ⟨out, hmapm, hout⟩ := mapM_ok_of_forall_ok _ _ hstep
  refine ⟨out, ?_, ?_⟩
  · simp only [groupbySum1, hrx, hry, except_bind_ok, hfilter, hmapm]
  · intro o ho
    obtain ⟨k, hk, hko⟩ := hout o ho
    obtain ⟨a, b, hkd⟩ := hkey k hk
    cases ha : aggSum (f.rows.filterMap
        (fun r => if r.getD 0 Cell.null == k then some (r.getD 1 Cell.null)
                  else none)) with
    | error e => rw [ha, except_bind_err] at hko; cases hko
    | ok v =>
        rw [ha, except_bind_ok, except_pure] at hko
        cases hko
        exact ⟨a, b, v, by rw [hkd]⟩

/-- C7 amended, in two parts.
(a) When `x` is not an existing column — date-suggesting name or not —
no derived date column is ever created: reading the absent column raises
inside the inner handler before any assignment, so the caller's frame is
returned untouched and the build yields no figure.
(b) Month-start bucketing IS applied when `x` exists and is date-typed:
for a bar build over a date-typed `x` and numeric `y` (with no grouping
keyword in the title), a figure is produced whose working frame has
every `x` cell bucketed to a month-start date, and the caller's frame is
unchanged. -/
theorem generate_chart_date_bucketing :
    (∀ (df : DF) (ct x ystr : String) (t : Option String),
      hasSubstr "/" ystr = false →
      df.cols.contains x = false →
      generate_chart df ⟨ct, x, .str ystr, t⟩ = (none, df)) ∧
    (∀ (df : DF) (x ystr t : String) (xs ys : List Cell),
      hasSubstr "/" ystr = false →
      df.getCol x = some xs → xs.all Cell.isDate = true →
      df.getCol ystr = some ys → ys.all Cell.isNum = true →
      x ≠ ystr → df.rows ≠ [] →
      inferColor t df.cols = none →
      ∃ fig, generate_chart df ⟨"bar", x, .str ystr, some t⟩ = (some fig, df) ∧
        fig.data.cols = [x, ystr] ∧
        ∀ r ∈ fig.data.rows, ∃ a b v, r = [Cell.date a b 1, v]) := by
  constructor
  · intro df ct x ystr t hs hx
    have hnotmem : x ∉ df.cols := by
      intro hm
      rw [contains_eq_true_of_mem x _ hm] at hx
      cases hx
    simp [generate_chart, chartTail, hs, hx]
    intro hmem _
    exact absurd hmem hnotmem
  · intro df x ystr t xs ys hs hgx hxd hgy hyn hne hrows hcol
    obtain ⟨i, hix, hxs⟩ := getCol_some_shape df x xs hgx
    obtain ⟨j, hjx, hys⟩ := getCol_some_shape df ystr ys hgy
    obtain ⟨hilt, hci⟩ := idxOf?_some_spec x _ i hix
    obtain ⟨hjlt, hcj⟩ := idxOf?_some_spec ystr _ j hjx
    have hxmem : df.cols.contains x = true :=
      contains_eq_true_of_mem x _ (hci ▸ List.getElem_mem hilt)
    have hymem : df.cols.contains ystr = true :=
      contains_eq_true_of_mem ystr _ (hcj ▸ List.getElem_mem hjlt)
    have hij : i ≠ j := by
      intro e
      subst e
      rw [hci] at hcj
      exact hne hcj
    have hxcell : ∀ r ∈ df.rows, (r.getD i Cell.null).isDate = true := by
      intro r hr
      refine List.all_eq_true.mp hxd _ ?_
      rw [hxs]
      exact List.mem_map_of_mem _ hr
    have hycell : ∀ r ∈ df.rows, (r.getD j Cell.null).isNum = true := by
      intro r hr
      refine List.all_eq_true.mp hyn _ ?_
      rw [hys]
      exact List.mem_map_of_mem _ hr
    have hcax : ∀ r, cellAtName df.cols x r = r.getD i Cell.null := by
      intro r; rw [cellAtName, hix]
    have hcay : ∀ r, cellAtName df.cols ystr r = r.getD j Cell.null := by
      intro r; rw [cellAtName, hjx]
    have hdrop : dropnaRows df [x, ystr] = df := by
      refine dropnaRows_eq_self df _ ?_
      intro r hr
      simp only [List.all_cons, List.all_nil, Bool.and_true, hcax, hcay,
        cell_isDate_beq_null _ (hxcell r hr),
        cell_isNum_beq_null _ (hycell r hr)]
      rfl
    have hdropx : dropnaRows df [x] = df := by
      refine dropnaRows_eq_self df _ ?_
      intro r hr
      simp only [List.all_cons, List.all_nil, Bool.and_true, hcax,
        cell_isDate_beq_null _ (hxcell r hr)]
      rfl
    have hdtc : isDatetimeCol xs = true := by
      have h1 : xs.all (fun c => c.isDate || c == Cell.null) = true := by
        refine List.all_eq_true.mpr ?_
        intro c hc
        rw [List.all_eq_true.mp hxd c hc]
        rfl
      have h2 : xs.any Cell.isDate = true := by
        obtain ⟨r, hr⟩ := List.exists_mem_of_ne_nil df.rows hrows
        refine List.any_eq_true.mpr ⟨r.getD i Cell.null, ?_, hxcell r hr⟩
        rw [hxs]
        exact List.mem_map_of_mem _ hr
      rw [isDatetimeCol, h1, h2]
      rfl
    have hmapid : xs.map toDatetimeCell = xs := by
      refine (List.map_congr_left ?_).trans (List.map_id xs)
      intro c hc
      have hcd := List.all_eq_true.mp hxd c hc
      cases c with
      | date a b d => rfl
      | num q => cases hcd
      | str s => cases hcd
      | null => cases hcd
    have hsetid : setCol df x xs = df := by
      rw [hxs]
      exact setCol_id df x i hix
    have hstep : dateStep df x = some (setCol df x (xs.map bucketMonth)) := by
      have hcond : (isDatetimeCol xs || hasSubstr "date" (strLower x)) = true := by
        rw [hdtc]; rfl
      simp only [dateStep, hgx, hcond, if_true, hmapid, hsetid, hdropx]
    have hBshape : setCol df x (xs.map bucketMonth) =
        ⟨df.cols, df.rows.map
          (fun r => r.set i (bucketMonth (r.getD i Cell.null)))⟩ := by
      rw [hxs]
      exact setCol_self_map df x i hix bucketMonth
    have hBcols : (setCol df x (xs.map bucketMonth)).cols = df.cols := by
      rw [hBshape]
    have hmain : generate_chart df ⟨"bar", x, .str ystr, some t⟩
        = (chartTail df (strLower "bar") x (.str ystr) t, df) := by
      simp [generate_chart, hs]
    have hbar : strLower "bar" = "bar" := by decide
    have hsel : selectCols (setCol df x (xs.map bucketMonth)) [x, ystr] =
        .ok ⟨[x, ystr], df.rows.map
          (fun r => [bucketMonth (r.getD i Cell.null), r.getD j Cell.null])⟩ := by
      rw [selectCols, if_pos (by
        rw [hBcols]
        simp only [List.all_cons, List.all_nil, hxmem, hymem]
        rfl)]
      rw [hBshape]
      simp only [List.map_map]
      refine congrArg Except.ok (congrArg (DF.mk [x, ystr]) ?_)
      refine List.map_congr_left ?_
      intro r hr
      have hiltr : i < r.length := lt_length_of_getD_isDate r i (hxcell r hr)
      simp only [Function.comp_apply, List.map_cons, List.map_nil]
      rw [hcax, hcay]
      rw [getD_set_self_lt r i _ Cell.null hiltr, getD_set_ne r i j _ Cell.null hij]
    have hfshape : ∀ rr ∈ (df.rows.map
        (fun r => [bucketMonth (r.getD i Cell.null), r.getD j Cell.null])),
        ∃ a b v, rr = [Cell.date a b 1, v] ∧ v.isNum = true := by
      intro rr hrr
      obtain ⟨r, hr, hrw⟩ := List.mem_map.mp hrr
      cases hcd : r.getD i Cell.null with
      | date a b d =>
          refine ⟨a, b, r.getD j Cell.null, ?_, hycell r hr⟩
          rw [← hrw, hcd]
          rfl
      | num q => have := hxcell r hr; rw [hcd] at this; cases this
      | str s => have := hxcell r hr; rw [hcd] at this; cases this
      | null => have := hxcell r hr; rw [hcd] at this; cases this
    obtain ⟨out, hgrp, hout⟩ := groupbySum1_dates
      ⟨[x, ystr], df.rows.map
        (fun r => [bucketMonth (r.getD i Cell.null), r.getD j Cell.null])⟩
      x ystr hne rfl hfshape
    have hsortcols : ∀ rows2, sortValues ⟨[x, ystr], rows2⟩ x =
        .ok ⟨[x, ystr], sortRowsBy
          (fun r1 r2 => cellLe (r1.getD 0 Cell.null) (r2.getD 0 Cell.null)) rows2⟩ := by
      intro rows2
      rw [sortValues]
      rw [show resolveUnique (⟨[x, ystr], rows2⟩ : DF).cols x = .ok 0 from
        resolveUnique_pair_left x ystr hne]
    have hsingle : singlePath (setCol df x (xs.map bucketMonth)) "bar" x ystr
        none t = some ⟨"bar", ⟨[x, ystr], sortRowsBy
          (fun r1 r2 => cellLe (r1.getD 0 Cell.null) (r2.getD 0 Cell.null)) out⟩,
          x, ystr, none, t⟩ := by
      rw [singlePath]
      rw [if_neg (by decide)]
      simp only [hsel, except_bind_ok, hgrp, hsortcols out]
      rfl
    refine ⟨⟨"bar", ⟨[x, ystr], sortRowsBy
      (fun r1 r2 => cellLe (r1.getD 0 Cell.null) (r2.getD 0 Cell.null)) out⟩,
      x, ystr, none, t⟩, ?_, rfl, ?_⟩
    · rw [hmain, hbar, chartTail]
      have hcond : (!df.cols.contains x || !df.cols.contains ystr) = false := by
        rw [hxmem, hymem]; rfl
      have hsub : dropnaSubset df [x, ystr] = .ok df := by
        rw [dropnaSubset, if_pos (by
          simp only [List.all_cons, List.all_nil, hxmem, hymem]; rfl), hdrop]
      simp only [yNames]
      simp [hcond, hsub, hstep, hBcols, hcol, hsingle]
      exact ⟨List.elem_iff.mp hxmem, List.elem_iff.mp hymem⟩
    · intro r hr
      simp only [mem_sortRowsBy] at hr
      exact hout r hr

def dfC7b : DF := ⟨["D", "V"],
  [[.date 2023 5 17, .num 3], [.date 2023 5 2, .num 4], [.date 2024 1 9, .num 5]]⟩
def specC7b : ChartSpec := ⟨"bar", "D", .str "V", some "trend"⟩

/-- Witness for C7 (amended): part (a) at the concrete missing "Order
Date" column, part (b) at a concrete date-typed frame whose figure rows
all carry month-start dates. -/
theorem generate_chart_date_bucketing_witness :
    generate_chart dfC7 specC7 = (none, dfC7) ∧
    ∃ fig, generate_chart dfC7b specC7b = (some fig, dfC7b) ∧
      fig.data.cols = ["D", "V"] ∧
      ∀ r ∈ fig.data.rows, ∃ a b v, r = [Cell.date a b 1, v] := by
  constructor
  · exact generate_chart_date_bucketing.1 dfC7 "bar" "Order Date" "Sales"
      (some "monthly") (by decide) (by decide)
  · exact generate_chart_date_bucketing.2 dfC7b "D" "V" "trend"
      [.date 2023 5 17, .date 2023 5 2, .date 2024 1 9]
      [.num 3, .num 4, .num 5]
      (by decide) (by decide) (by decide) (by decide) (by decide)
      (by decide) (by decide) (by decide)

end CafeSql
